import Mathlib

/-!
# Verification of the WZ tournament platform's registration/settlement engine

This file shallowly embeds the data model and the operations of the WZ
tournament platform (TypeScript, Express + Drizzle ORM) and proves properties
of the registration engine stated in the platform's specification.

Embedded source files:
* `shared/schema.ts` — the `users` and `tournaments` tables (`User`,
  `Tournament`, `InsertUser`).
* `server/storage.ts` — `DatabaseStorage`: the cache (`getFromCache`,
  `setCache`), `getTournament`, `createUser`, `updateUser`,
  `updateTournament`, `registerForTournament`, `unregisterFromTournament`.
* `server/services/userService.ts` — `UserService.getOrCreateUser`,
  `deductStars`, `awardStars`, and the `TournamentService`
  (`registerUserForTournament`, `unregisterUserFromTournament`) that wraps
  the storage operations with the business-rule checks.

Database tables are modelled as lists of rows; a `SELECT ... WHERE id = x`
returning the first matching row becomes `findByKey`, and an
`UPDATE ... SET ... WHERE id = x` becomes `updateByKey`.  Star balances and
the integer columns are modelled as `Int` (JavaScript numbers used as
integers).  Timestamps (`Date.now()`) are explicit `Int` parameters.
-/

namespace WZ

/-- Tournament lifecycle status (`shared/schema.ts`: `status` column with
values `upcoming`, `active`, `completed`). -/
inductive TStatus where
  | upcoming
  | active
  | completed
deriving DecidableEq, Repr

/-- A row of the `users` table (`shared/schema.ts`).  `stars` is the star
balance, `participatingTournaments` the list of tournament ids the user is
enrolled in. -/
structure User where
  id : String
  telegramId : String
  username : String
  firstName : Option String
  lastName : Option String
  isAdmin : Bool
  stars : Int
  participatingTournaments : List String
deriving DecidableEq, Repr

/-- A row of the `tournaments` table (`shared/schema.ts`). -/
structure Tournament where
  id : String
  title : String
  description : String
  mapName : String
  mapImage : String
  date : Int
  entryFee : Int
  prize : Int
  maxParticipants : Int
  participants : List String
  status : TStatus
  tournamentType : String
  createdAt : Int
deriving DecidableEq, Repr

/-- The argument object accepted by `DatabaseStorage.createUser`
(`shared/schema.ts`: `InsertUser`).  The insert schema omits `stars` and
`participatingTournaments`; the optional `stars` field here models the
runtime payload of callers such as `UserService.getOrCreateUser`, which
passes `stars: 100` — a property the storage layer never reads. -/
structure InsertUser where
  telegramId : String
  username : String
  firstName : Option String
  lastName : Option String
  isAdmin : Option Bool
  stars : Option Int
deriving DecidableEq, Repr

/-- The persistent state: the two tables of the ledger store. -/
structure DB where
  users : List User
  tournaments : List Tournament
deriving DecidableEq, Repr

/-- `SELECT * FROM t WHERE key = id` followed by destructuring the first row:
the first row of the table whose key equals `id`. -/
def findByKey (k : α → String) (id : String) : List α → Option α
  | [] => none
  | a :: l => if k a = id then some a else findByKey k id l

/-- `UPDATE t SET ... WHERE key = id`: apply `f` to every row whose key
equals `id`. -/
def updateByKey (k : α → String) (id : String) (f : α → α) : List α → List α
  | [] => []
  | a :: l => (if k a = id then f a else a) :: updateByKey k id f l

/-- `db.select().from(users).where(eq(users.id, id))` (`storage.ts`,
`getUser`). -/
def findUser (s : DB) (id : String) : Option User :=
  findByKey User.id id s.users

/-- `db.select().from(users).where(eq(users.telegramId, tg))` (`storage.ts`,
`getUserByTelegramId`). -/
def findUserByTelegramId (s : DB) (tg : String) : Option User :=
  findByKey User.telegramId tg s.users

/-- `db.select().from(tournaments).where(eq(tournaments.id, id))`
(`storage.ts`, the ledger-store read behind `getTournament`). -/
def findTournament (s : DB) (id : String) : Option Tournament :=
  findByKey Tournament.id id s.tournaments

/-- `DatabaseStorage.createUser` (`storage.ts:101-115`): inserts a row built
from the caller-supplied identity fields, with `stars: 1000` and
`participatingTournaments: []` hard-coded.  `newId` stands for the
database-generated primary key (`gen_random_uuid()`). -/
def createUser (ins : InsertUser) (newId : String) (s : DB) : User × DB :=
  let u : User :=
    { id := newId
      telegramId := ins.telegramId
      username := ins.username
      firstName := ins.firstName
      lastName := ins.lastName
      isAdmin := ins.isAdmin.getD false
      stars := 1000
      participatingTournaments := [] }
  (u, { s with users := s.users ++ [u] })

/-- `DatabaseStorage.updateUser` (`storage.ts:117-124`): a partial update
(`.set(updates)`) is modelled as a row-transformer `f`; returns the updated
row (`.returning()`) when a row with this id exists. -/
def updateUser (id : String) (f : User → User) (s : DB) : Option User × DB :=
  let us := updateByKey User.id id f s.users
  (findByKey User.id id us, { s with users := us })

/-- `DatabaseStorage.updateTournament` (`storage.ts:194-208`): partial update
of a tournament row, returning the updated row. -/
def updateTournament (id : String) (f : Tournament → Tournament) (s : DB) :
    Option Tournament × DB :=
  let ts := updateByKey Tournament.id id f s.tournaments
  (findByKey Tournament.id id ts, { s with tournaments := ts })

/-- The committed effect of a successful registration
(`storage.ts:244-259`): debit the entry fee and append the tournament to the
user's list, then append the user to the tournament's participants.  The
written values are computed from the rows `t` and `u` read under lock, as in
the source (`user.stars - tournament.entryFee`, etc.). -/
def registerApply (tournamentId userId : String) (t : Tournament) (u : User)
    (s : DB) : DB :=
  let us := updateByKey User.id userId
    (fun x => { x with
      stars := u.stars - t.entryFee,
      participatingTournaments := u.participatingTournaments ++ [tournamentId] })
    s.users
  let ts := updateByKey Tournament.id tournamentId
    (fun x => { x with participants := t.participants ++ [userId] })
    s.tournaments
  { users := us, tournaments := ts }

/-- `DatabaseStorage.registerForTournament` (`storage.ts:223-267`): inside
one transaction, read the tournament row and the user row (both
`SELECT ... FOR UPDATE`), return `false` if either is missing, if the user
is already a participant, if the tournament is full, or if the balance is
insufficient; otherwise commit the debit and the two list updates. -/
def registerForTournament (tournamentId userId : String) (s : DB) : Bool × DB :=
  match findTournament s tournamentId, findUser s userId with
  | some tournament, some user =>
    if userId ∈ tournament.participants then (false, s)
    else if (tournament.participants.length : Int) ≥ tournament.maxParticipants then (false, s)
    else if user.stars < tournament.entryFee then (false, s)
    else (true, registerApply tournamentId userId tournament user s)
  | _, _ => (false, s)

/-- The reason the guard cascade of `registerForTournament`
(`storage.ts:239-242`) rejects a call; the spec's error taxonomy names these
`NotFound`, `AlreadyRegistered`, `CapacityExceeded`, `InsufficientBalance`. -/
inductive RegError where
  | notFound
  | alreadyRegistered
  | capacityExceeded
  | insufficientBalance
deriving DecidableEq, Repr

/-- Which guard of `registerForTournament` fires, in the source's order:
existence, membership, capacity, balance.  `none` means every precondition
holds and the registration commits. -/
def registerCheck (tournamentId userId : String) (s : DB) : Option RegError :=
  match findTournament s tournamentId, findUser s userId with
  | some tournament, some user =>
    if userId ∈ tournament.participants then some .alreadyRegistered
    else if (tournament.participants.length : Int) ≥ tournament.maxParticipants then
      some .capacityExceeded
    else if user.stars < tournament.entryFee then some .insufficientBalance
    else none
  | _, _ => some .notFound

/-- The committed effect of a successful unregistration
(`storage.ts:292-313`): refund the entry fee, remove the first occurrence of
the tournament from the user's list (`indexOf` + `splice`), and remove the
first occurrence of the user from the participants. -/
def unregisterApply (tournamentId userId : String) (t : Tournament) (u : User)
    (s : DB) : DB :=
  let us := updateByKey User.id userId
    (fun x => { x with
      stars := u.stars + t.entryFee,
      participatingTournaments := u.participatingTournaments.erase tournamentId })
    s.users
  let ts := updateByKey Tournament.id tournamentId
    (fun x => { x with participants := t.participants.erase userId })
    s.tournaments
  { users := us, tournaments := ts }

/-- `DatabaseStorage.unregisterFromTournament` (`storage.ts:269-321`): read
both rows under lock, return `false` if either is missing or either
membership index is `-1`; otherwise refund and remove both memberships. -/
def unregisterFromTournament (tournamentId userId : String) (s : DB) : Bool × DB :=
  match findTournament s tournamentId, findUser s userId with
  | some tournament, some user =>
    if userId ∉ tournament.participants ∨
        tournamentId ∉ user.participatingTournaments then (false, s)
    else (true, unregisterApply tournamentId userId tournament user s)
  | _, _ => (false, s)

/-! ## Cache layer (`storage.ts:29-63`, `getTournament` 153-175)

The cache is a string-keyed map of `{ data, expires }` slots.  `Date.now()`
is an explicit `now` parameter.  A JavaScript `Map.set` replaces the slot of
an existing key; for lookup purposes this is modelled by removing the key
and prepending the new slot. -/

/-- One cache slot: `{ data, expires }` (`storage.ts:58-63`). -/
structure CacheEntry where
  data : Tournament
  expires : Int
deriving DecidableEq, Repr

/-- The `Map<string, { data, expires }>` of `DatabaseStorage`. -/
abbrev Cache := List (String × CacheEntry)

/-- `cacheTimeout = 5 * 60 * 1000` — the fixed five-minute TTL in
milliseconds (`storage.ts:30`). -/
def cacheTimeout : Int := 5 * 60 * 1000

/-- `this.cache.get(key)`. -/
def cacheGet (key : String) : Cache → Option CacheEntry
  | [] => none
  | kv :: c => if kv.fst = key then some kv.snd else cacheGet key c

/-- `this.cache.delete(key)`. -/
def cacheDelete (key : String) (c : Cache) : Cache :=
  c.filter (fun kv => kv.fst != key)

/-- `DatabaseStorage.getFromCache` (`storage.ts:49-56`): a missing or
expired slot is deleted and yields `null`; otherwise the cached data is
returned and the cache is untouched. -/
def getFromCache (c : Cache) (now : Int) (key : String) :
    Option Tournament × Cache :=
  match cacheGet key c with
  | none => (none, cacheDelete key c)
  | some e => if now > e.expires then (none, cacheDelete key c) else (some e.data, c)

/-- `DatabaseStorage.setCache` (`storage.ts:58-63`): store `data` under
`key` with expiry `now + cacheTimeout`. -/
def setCache (c : Cache) (now : Int) (key : String) (data : Tournament) : Cache :=
  (key, ⟨data, now + cacheTimeout⟩) :: cacheDelete key c

/-- `DatabaseStorage.getTournament` (`storage.ts:153-175`): read-through
lookup.  `dbRead` is the Ledger Store read
(`db.select().from(tournaments).where(eq(tournaments.id, id))`).  On a cache
hit the cached value is returned; otherwise the loader runs and, when it
yields a row, the row is cached with a fresh expiry. -/
def getTournamentCached (c : Cache) (now : Int) (id : String)
    (dbRead : String → Option Tournament) : Option Tournament × Cache :=
  let key := "tournament:" ++ id
  match getFromCache c now key with
  | (some t, c1) => (some t, c1)
  | (none, c1) =>
    match dbRead id with
    | some t => (some t, setCache c1 now key t)
    | none => (none, c1)

/-! ## Service layer (`services/userService.ts`, `TournamentService`) -/

/-- The discriminated result returned by the `TournamentService`
registration operations: `{ success, message, tournament?, user? }`. -/
structure ServiceResult where
  success : Bool
  message : String
  tournament : Option Tournament := none
  user : Option User := none
deriving DecidableEq, Repr

/-- `UserService.getOrCreateUser` (`userService.ts:13-29`): return the user
with this telegram id, creating one (with the listed defaults and a
`stars: 100` property that `createUser` ignores) when absent.  `newId` is
the database-generated id used on the create path. -/
def getOrCreateUser (telegramId newId : String) (s : DB) : User × DB :=
  match findUserByTelegramId s telegramId with
  | some u => (u, s)
  | none =>
    createUser
      { telegramId := telegramId
        username := "user_" ++ telegramId
        firstName := some "Telegram"
        lastName := some "User"
        isAdmin := some (telegramId == "mock-user")
        stars := some 100 } newId s

/-- `UserService.deductStars` (`userService.ts`): `null` when the user is
missing or the balance is short, else write `user.stars - amount`. -/
def deductStars (telegramId : String) (amount : Int) (s : DB) :
    Option User × DB :=
  match findUserByTelegramId s telegramId with
  | none => (none, s)
  | some user =>
    if user.stars < amount then (none, s)
    else updateUser user.id (fun x => { x with stars := user.stars - amount }) s

/-- `UserService.awardStars` (`userService.ts`): write
`Math.max(0, user.stars + amount)`. -/
def awardStars (telegramId : String) (amount : Int) (s : DB) :
    Option User × DB :=
  match findUserByTelegramId s telegramId with
  | none => (none, s)
  | some user =>
    updateUser user.id (fun x => { x with stars := max 0 (user.stars + amount) }) s

/-- `TournamentService.registerUserForTournament` (the service in front of
`storage.registerForTournament`): resolve the user, read the tournament,
and check — in this order — existence, `status === 'upcoming'`, balance,
capacity, membership; then deduct the fee, run the storage registration,
and refund on a storage-level failure.  The tournament read goes through
`storage.getTournament`; its ledger read on a cache miss is the row lookup
used here (the cache itself is modelled separately above). -/
def registerUserForTournament (tournamentId telegramId newId : String)
    (s : DB) : ServiceResult × DB :=
  let p := getOrCreateUser telegramId newId s
  let user := p.fst
  let s0 := p.snd
  match findTournament s0 tournamentId with
  | none => ({ success := false, message := "Tournament not found" }, s0)
  | some tournament =>
    if tournament.status ≠ .upcoming then
      ({ success := false,
         message := "Tournament is no longer accepting registrations" }, s0)
    else if user.stars < tournament.entryFee then
      ({ success := false,
         message := "Insufficient stars. Required: " ++ toString tournament.entryFee
           ++ ", You have: " ++ toString user.stars }, s0)
    else if (tournament.participants.length : Int) ≥ tournament.maxParticipants then
      ({ success := false, message := "Tournament is full" }, s0)
    else if user.id ∈ tournament.participants then
      ({ success := false, message := "Already registered for this tournament" }, s0)
    else
      match deductStars telegramId tournament.entryFee s0 with
      | (none, s1) => ({ success := false, message := "Failed to deduct entry fee" }, s1)
      | (some updatedUser, s1) =>
        let q := registerForTournament tournamentId user.id s1
        if q.fst then
          ({ success := true, message := "Successfully registered for tournament",
             tournament := findTournament q.snd tournamentId,
             user := some updatedUser }, q.snd)
        else
          let r := awardStars telegramId tournament.entryFee q.snd
          ({ success := false, message := "Failed to register for tournament" }, r.snd)

/-- `TournamentService.unregisterUserFromTournament`: resolve the user, read
the tournament, check existence, `status === 'upcoming'`, membership; then
run the storage unregistration and credit the fee through `awardStars`. -/
def unregisterUserFromTournament (tournamentId telegramId newId : String)
    (s : DB) : ServiceResult × DB :=
  let p := getOrCreateUser telegramId newId s
  let user := p.fst
  let s0 := p.snd
  match findTournament s0 tournamentId with
  | none => ({ success := false, message := "Tournament not found" }, s0)
  | some tournament =>
    if tournament.status ≠ .upcoming then
      ({ success := false,
         message := "Cannot unregister from tournament that has started" }, s0)
    else if user.id ∉ tournament.participants then
      ({ success := false, message := "Not registered for this tournament" }, s0)
    else
      let q := unregisterFromTournament tournamentId user.id s0
      if q.fst then
        let r := awardStars telegramId tournament.entryFee q.snd
        let p2 := getOrCreateUser telegramId newId r.snd
        ({ success := true, message := "Successfully unregistered from tournament",
           tournament := findTournament p2.snd tournamentId,
           user := some p2.fst }, p2.snd)
      else
        ({ success := false, message := "Failed to unregister from tournament" }, q.snd)

/-! ## Row-hold acquisition order (`storage.ts:225-237`, `271-283`)

Each registration transaction issues two `SELECT ... FOR UPDATE`
statements; the statement both acquires the exclusive row hold and reads
the row's value under that hold.  The event sequences below transliterate
the order in which the two transactions touch the rows. -/

/-- A reference to one lockable row. -/
inductive RowRef where
  | tournamentRow (id : String)
  | userRow (id : String)
deriving DecidableEq, Repr

/-- A row-level event inside a transaction: taking the exclusive hold on a
row, or reading the row's value. -/
inductive TxEvent where
  | acquireRow (r : RowRef)
  | readRow (r : RowRef)
deriving DecidableEq, Repr

/-- The row accesses of `registerForTournament`'s transaction, in source
order (`storage.ts:227-237`): lock and read the tournament row, then lock
and read the user row; every precondition check follows. -/
def registerTxEvents (tournamentId userId : String) : List TxEvent :=
  [.acquireRow (.tournamentRow tournamentId), .readRow (.tournamentRow tournamentId),
   .acquireRow (.userRow userId), .readRow (.userRow userId)]

/-- The row accesses of `unregisterFromTournament`'s transaction
(`storage.ts:273-283`): the same fixed order, tournament row first. -/
def unregisterTxEvents (tournamentId userId : String) : List TxEvent :=
  [.acquireRow (.tournamentRow tournamentId), .readRow (.tournamentRow tournamentId),
   .acquireRow (.userRow userId), .readRow (.userRow userId)]

/-- The sequence of row holds a transaction acquires. -/
def acquisitions (tr : List TxEvent) : List RowRef :=
  tr.filterMap (fun e => match e with | .acquireRow r => some r | .readRow _ => none)

/-- The fixed global ordering over row kinds: every tournament row ranks
before every user row. -/
def rowRank : RowRef → Nat
  | .tournamentRow _ => 0
  | .userRow _ => 1

/-- `a` is locked before `b` in the transaction `tr`. -/
def acquiredBefore (tr : List TxEvent) (a b : RowRef) : Prop :=
  [a, b].Sublist (acquisitions tr)

/-! ## Invariants and the reachable-state relation -/

/-- Primary-key well-formedness of the two tables: `id` is unique. -/
def keysOk (s : DB) : Prop :=
  (s.users.map User.id).Nodup ∧ (s.tournaments.map Tournament.id).Nodup

/-- The capacity invariant: no roster exceeds `maxParticipants`. -/
def capacityOk (s : DB) : Prop :=
  ∀ t ∈ s.tournaments, (t.participants.length : Int) ≤ t.maxParticipants

/-- Rosters and enrolled sets carry no duplicates (the spec's "unique" /
"set of Tournament ids, no duplicates"). -/
def rostersNodup (s : DB) : Prop :=
  (∀ t ∈ s.tournaments, t.participants.Nodup) ∧
  (∀ u ∈ s.users, u.participatingTournaments.Nodup)

/-- Bidirectional membership: a user is on a tournament's roster exactly
when the tournament is in the user's enrolled list. -/
def bidirOk (s : DB) : Prop :=
  ∀ u ∈ s.users, ∀ t ∈ s.tournaments,
    (u.id ∈ t.participants ↔ t.id ∈ u.participatingTournaments)

/-- A consistent committed state: well-formed keys, duplicate-free rosters,
bidirectional membership. -/
def Consistent (s : DB) : Prop := keysOk s ∧ rostersNodup s ∧ bidirOk s

/-- One committed `registerForTournament` or `unregisterFromTournament`
call (successful or failed). -/
def RegStep (s s' : DB) : Prop :=
  ∃ tid uid, s' = (registerForTournament tid uid s).snd ∨
    s' = (unregisterFromTournament tid uid s).snd

/-- States reachable through any sequence of register/unregister calls. -/
def Reachable : DB → DB → Prop := Relation.ReflTransGen RegStep

/-- One committed register/unregister call whose user argument is not
`uid` — "no other operation touched that user in between". -/
def RegStepAvoiding (uid : String) (s s' : DB) : Prop :=
  ∃ tid uid2, uid2 ≠ uid ∧
    (s' = (registerForTournament tid uid2 s).snd ∨
      s' = (unregisterFromTournament tid uid2 s).snd)

/-! ## Concrete states used by witnesses and counterexamples -/

/-- A user with 200 stars, enrolled nowhere. -/
def userA : User :=
  { id := "u1", telegramId := "tg1", username := "alice", firstName := none,
    lastName := none, isAdmin := false, stars := 200,
    participatingTournaments := [] }

/-- A user with 100 stars, enrolled in tournaments `t1` and `t9`. -/
def userB : User :=
  { id := "u2", telegramId := "tg2", username := "bob", firstName := none,
    lastName := none, isAdmin := false, stars := 100,
    participatingTournaments := ["t1", "t9"] }

/-- A user with 50 stars, enrolled nowhere. -/
def userC : User :=
  { id := "u3", telegramId := "tg3", username := "carol", firstName := none,
    lastName := none, isAdmin := false, stars := 50,
    participatingTournaments := [] }

/-- An upcoming tournament with fee 100 and one of two slots taken. -/
def upcomingT : Tournament :=
  { id := "t1", title := "Championship Finals", description := "", mapName := "CYBER CITY",
    mapImage := "", date := 0, entryFee := 100, prize := 1250, maxParticipants := 2,
    participants := ["u2"], status := .upcoming, tournamentType := "CHAMPIONSHIP",
    createdAt := 0 }

/-- An upcoming tournament that is already full (capacity 1). -/
def fullT : Tournament :=
  { id := "t9", title := "Duel", description := "", mapName := "REBIRTH ISLAND",
    mapImage := "", date := 0, entryFee := 100, prize := 300, maxParticipants := 1,
    participants := ["u2"], status := .upcoming, tournamentType := "BATTLE ROYALE",
    createdAt := 0 }

/-- An `active` tournament with fee 100, one roster slot taken by `u2`. -/
def activeT : Tournament :=
  { id := "t1", title := "Tournament on the Rebirth Island", description := "",
    mapName := "REBIRTH ISLAND", mapImage := "", date := 0, entryFee := 100,
    prize := 2500, maxParticipants := 10, participants := ["u2"], status := .active,
    tournamentType := "BATTLE ROYALE", createdAt := 0 }

/-- A consistent database: three users, an open tournament and a full one. -/
def db0 : DB := { users := [userA, userB, userC], tournaments := [upcomingT, fullT] }

/-- A database whose only tournament is `active` (not `upcoming`). -/
def dbActive : DB :=
  { users := [userA, { userB with participatingTournaments := ["t1"] }],
    tournaments := [activeT] }

end WZ

namespace WZ

/-! ## Lemmas about the keyed-table primitives -/

theorem findByKey_mem {k : α → String} {id : String} {l : List α} {a : α}
    (h : findByKey k id l = some a) : a ∈ l := by
  induction l with
  | nil => simp [findByKey] at h
  | cons b t ih =>
    rw [findByKey] at h
    split at h
    · exact (Option.some.inj h) ▸ List.mem_cons_self b t
    · exact List.mem_cons_of_mem _ (ih h)

theorem findByKey_key {k : α → String} {id : String} {l : List α} {a : α}
    (h : findByKey k id l = some a) : k a = id := by
  induction l with
  | nil => simp [findByKey] at h
  | cons b t ih =>
    rw [findByKey] at h
    split at h
    · rename_i hb; exact (Option.some.inj h) ▸ hb
    · exact ih h

theorem findByKey_eq_some_of_mem {k : α → String} {id : String} {l : List α} {a : α}
    (hnd : (l.map k).Nodup) (ha : a ∈ l) (hk : k a = id) :
    findByKey k id l = some a := by
  induction l with
  | nil => simp at ha
  | cons b t ih =>
    rw [findByKey]
    rcases List.mem_cons.mp ha with rfl | hat
    · simp [hk]
    · rw [List.map_cons, List.nodup_cons] at hnd
      have hbk : k b ≠ id := by
        intro hb
        exact hnd.1 (hb ▸ hk ▸ List.mem_map_of_mem k hat)
      rw [if_neg hbk]
      exact ih hnd.2 hat

theorem mem_updateByKey {k : α → String} {id : String} {f : α → α} {l : List α} {b : α} :
    b ∈ updateByKey k id f l ↔ ∃ a ∈ l, b = if k a = id then f a else a := by
  induction l with
  | nil => simp [updateByKey]
  | cons c t ih =>
    rw [updateByKey]
    simp only [List.mem_cons, ih]
    constructor
    · rintro (rfl | ⟨a, ha, rfl⟩)
      · exact ⟨c, Or.inl rfl, rfl⟩
      · exact ⟨a, Or.inr ha, rfl⟩
    · rintro ⟨a, (rfl | ha), rfl⟩
      · exact Or.inl rfl
      · exact Or.inr ⟨a, ha, rfl⟩

theorem map_updateByKey {k : α → String} {id : String} {f : α → α} {l : List α}
    (hf : ∀ a, k (f a) = k a) : (updateByKey k id f l).map k = l.map k := by
  induction l with
  | nil => rfl
  | cons c t ih =>
    rw [updateByKey, List.map_cons, List.map_cons, ih]
    congr 1
    split <;> simp [hf]

theorem findByKey_updateByKey {k : α → String} {id id2 : String} {f : α → α} {l : List α}
    (hf : ∀ a, k (f a) = k a) :
    findByKey k id (updateByKey k id2 f l)
      = (findByKey k id l).map (fun a => if k a = id2 then f a else a) := by
  induction l with
  | nil => rfl
  | cons c t ih =>
    rw [updateByKey, findByKey, findByKey]
    have hkey : k (if k c = id2 then f c else c) = k c := by split <;> simp [hf]
    rw [hkey]
    split
    · rfl
    · exact ih

theorem findByKey_updateByKey_self {k : α → String} {id : String} {f : α → α}
    {l : List α} {a : α} (hf : ∀ a, k (f a) = k a)
    (h : findByKey k id l = some a) (hk : k a = id) :
    findByKey k id (updateByKey k id f l) = some (f a) := by
  rw [findByKey_updateByKey hf, h, Option.map_some', if_pos hk]

theorem findByKey_updateByKey_self_of {k : α → String} {id : String} (f : α → α)
    {l : List α} {a : α} (hf : ∀ a, k (f a) = k a)
    (h : findByKey k id l = some a) (hk : k a = id) :
    findByKey k id (updateByKey k id f l) = some (f a) :=
  findByKey_updateByKey_self hf h hk

theorem findByKey_updateByKey_ne {k : α → String} {id id2 : String} {f : α → α}
    {l : List α} (hf : ∀ a, k (f a) = k a) (h : id ≠ id2) :
    findByKey k id (updateByKey k id2 f l) = findByKey k id l := by
  rw [findByKey_updateByKey hf]
  cases hfk : findByKey k id l with
  | none => rfl
  | some a =>
    rw [Option.map_some', if_neg]
    rw [findByKey_key hfk]
    exact h

/-! ## Characterizations of the storage operations -/

theorem register_success {tid uid : String} {s : DB} {t : Tournament} {u : User}
    (ht : findTournament s tid = some t) (hu : findUser s uid = some u)
    (h1 : uid ∉ t.participants)
    (h2 : (t.participants.length : Int) < t.maxParticipants)
    (h3 : t.entryFee ≤ u.stars) :
    registerForTournament tid uid s = (true, registerApply tid uid t u s) := by
  rw [registerForTournament, ht, hu]
  simp [h1, not_le.mpr h2, not_lt.mpr h3]

theorem register_cases (tid uid : String) (s : DB) :
    registerForTournament tid uid s = (false, s) ∨
    ∃ t u, findTournament s tid = some t ∧ findUser s uid = some u ∧
      uid ∉ t.participants ∧ (t.participants.length : Int) < t.maxParticipants ∧
      t.entryFee ≤ u.stars ∧
      registerForTournament tid uid s = (true, registerApply tid uid t u s) := by
  cases ht : findTournament s tid with
  | none => left; rw [registerForTournament, ht]
  | some t =>
    cases hu : findUser s uid with
    | none => left; rw [registerForTournament, ht, hu]
    | some u =>
      by_cases h1 : uid ∈ t.participants
      · left; rw [registerForTournament, ht, hu]; simp [h1]
      · by_cases h2 : (t.participants.length : Int) ≥ t.maxParticipants
        · left; rw [registerForTournament, ht, hu]; simp [h1, h2]
        · by_cases h3 : u.stars < t.entryFee
          · left; rw [registerForTournament, ht, hu]; simp [h1, h2, h3]
          · right
            exact ⟨t, u, rfl, rfl, h1, not_le.mp h2, not_lt.mp h3,
              register_success ht hu h1 (not_le.mp h2) (not_lt.mp h3)⟩

theorem unregister_success {tid uid : String} {s : DB} {t : Tournament} {u : User}
    (ht : findTournament s tid = some t) (hu : findUser s uid = some u)
    (h1 : uid ∈ t.participants) (h2 : tid ∈ u.participatingTournaments) :
    unregisterFromTournament tid uid s = (true, unregisterApply tid uid t u s) := by
  rw [unregisterFromTournament, ht, hu]
  simp [h1, h2]

theorem unregister_cases (tid uid : String) (s : DB) :
    unregisterFromTournament tid uid s = (false, s) ∨
    ∃ t u, findTournament s tid = some t ∧ findUser s uid = some u ∧
      uid ∈ t.participants ∧ tid ∈ u.participatingTournaments ∧
      unregisterFromTournament tid uid s = (true, unregisterApply tid uid t u s) := by
  cases ht : findTournament s tid with
  | none => left; rw [unregisterFromTournament, ht]
  | some t =>
    cases hu : findUser s uid with
    | none => left; rw [unregisterFromTournament, ht, hu]
    | some u =>
      by_cases h1 : uid ∈ t.participants
      · by_cases h2 : tid ∈ u.participatingTournaments
        · exact Or.inr ⟨t, u, rfl, rfl, h1, h2, unregister_success ht hu h1 h2⟩
        · left; rw [unregisterFromTournament, ht, hu]; simp [h2]
      · left; rw [unregisterFromTournament, ht, hu]; simp [h1]

theorem findUser_registerApply_self (tid : String) {uid : String} (t : Tournament)
    {u : User} {s : DB} (hu : findUser s uid = some u) :
    findUser (registerApply tid uid t u s) uid
      = some ({ u with
          stars := u.stars - t.entryFee,
          participatingTournaments := u.participatingTournaments ++ [tid] }) := by
  unfold registerApply findUser
  exact findByKey_updateByKey_self (fun _ => rfl) hu (findByKey_key hu)

theorem findUser_registerApply_ne {tid uid x : String} {t : Tournament} {u : User}
    {s : DB} (hx : x ≠ uid) :
    findUser (registerApply tid uid t u s) x = findUser s x := by
  unfold registerApply findUser
  exact findByKey_updateByKey_ne (fun _ => rfl) hx

theorem findTournament_registerApply_self {tid : String} (uid : String)
    {t : Tournament} (u : User) {s : DB} (ht : findTournament s tid = some t) :
    findTournament (registerApply tid uid t u s) tid
      = some { t with participants := t.participants ++ [uid] } := by
  unfold registerApply findTournament
  exact findByKey_updateByKey_self (fun _ => rfl) ht (findByKey_key ht)

theorem findUser_unregisterApply_self (tid : String) {uid : String} (t : Tournament)
    {u : User} {s : DB} (hu : findUser s uid = some u) :
    findUser (unregisterApply tid uid t u s) uid
      = some ({ u with
          stars := u.stars + t.entryFee,
          participatingTournaments := u.participatingTournaments.erase tid }) := by
  unfold unregisterApply findUser
  exact findByKey_updateByKey_self (fun _ => rfl) hu (findByKey_key hu)

theorem findUser_unregisterApply_ne {tid uid x : String} {t : Tournament} {u : User}
    {s : DB} (hx : x ≠ uid) :
    findUser (unregisterApply tid uid t u s) x = findUser s x := by
  unfold unregisterApply findUser
  exact findByKey_updateByKey_ne (fun _ => rfl) hx

theorem findTournament_unregisterApply_self {tid : String} (uid : String)
    {t : Tournament} (u : User) {s : DB} (ht : findTournament s tid = some t) :
    findTournament (unregisterApply tid uid t u s) tid
      = some { t with participants := t.participants.erase uid } := by
  unfold unregisterApply findTournament
  exact findByKey_updateByKey_self (fun _ => rfl) ht (findByKey_key ht)

/-! ## Preservation of the invariants -/

theorem mem_updateByKey_cases {k : α → String} {id : String} {f : α → α} {l : List α}
    (hnd : (l.map k).Nodup) {a : α} (hfind : findByKey k id l = some a) {b : α}
    (hb : b ∈ updateByKey k id f l) : b = f a ∨ (b ∈ l ∧ k b ≠ id) := by
  obtain ⟨c, hc, rfl⟩ := mem_updateByKey.mp hb
  by_cases hck : k c = id
  · left
    have h2 : findByKey k id l = some c := findByKey_eq_some_of_mem hnd hc hck
    rw [hfind] at h2
    rw [if_pos hck, Option.some.inj h2]
  · right
    rw [if_neg hck]
    exact ⟨hc, hck⟩

theorem nodup_append_one {l : List String} {a : String} (h : l.Nodup) (ha : a ∉ l) :
    (l ++ [a]).Nodup := by
  rw [List.nodup_append]
  refine ⟨h, List.nodup_singleton a, ?_⟩
  intro x hx hx1
  rw [List.mem_singleton] at hx1
  exact ha (hx1 ▸ hx)

theorem nodup_map_key_updateByKey {k : α → String} {id : String} {f : α → α}
    {l : List α} (hf : ∀ a, k (f a) = k a) (h : (l.map k).Nodup) :
    ((updateByKey k id f l).map k).Nodup := by
  rw [map_updateByKey hf]; exact h

theorem keysOk_registerApply {tid uid : String} {t : Tournament} {u : User} {s : DB}
    (h : keysOk s) : keysOk (registerApply tid uid t u s) :=
  ⟨nodup_map_key_updateByKey (fun _ => rfl) h.1,
   nodup_map_key_updateByKey (fun _ => rfl) h.2⟩

theorem keysOk_unregisterApply {tid uid : String} {t : Tournament} {u : User} {s : DB}
    (h : keysOk s) : keysOk (unregisterApply tid uid t u s) :=
  ⟨nodup_map_key_updateByKey (fun _ => rfl) h.1,
   nodup_map_key_updateByKey (fun _ => rfl) h.2⟩

theorem consistent_registerApply {tid uid : String} {t : Tournament} {u : User} {s : DB}
    (hC : Consistent s) (ht : findTournament s tid = some t)
    (hu : findUser s uid = some u) (h1 : uid ∉ t.participants) :
    Consistent (registerApply tid uid t u s) := by
  have htid : t.id = tid := findByKey_key ht
  have huid : u.id = uid := findByKey_key hu
  subst htid; subst huid
  obtain ⟨⟨hku, hkt⟩, ⟨hpn, hen⟩, hb⟩ := hC
  have htm : t ∈ s.tournaments := findByKey_mem ht
  have hum : u ∈ s.users := findByKey_mem hu
  have henr : t.id ∉ u.participatingTournaments := fun hmem =>
    h1 ((hb u hum t htm).mpr hmem)
  refine ⟨keysOk_registerApply ⟨hku, hkt⟩, ⟨?_, ?_⟩, ?_⟩
  · intro t' ht'
    rcases mem_updateByKey_cases hkt ht ht' with rfl | ⟨hmem, _⟩
    · exact nodup_append_one (hpn t htm) h1
    · exact hpn t' hmem
  · intro u' hu'
    rcases mem_updateByKey_cases hku hu hu' with rfl | ⟨hmem, _⟩
    · exact nodup_append_one (hen u hum) henr
    · exact hen u' hmem
  · intro u' hu' t' ht'
    rcases mem_updateByKey_cases hku hu hu' with rfl | ⟨humem, hune⟩ <;>
      rcases mem_updateByKey_cases hkt ht ht' with rfl | ⟨htmem, htne⟩
    · show u.id ∈ t.participants ++ [u.id] ↔ t.id ∈ u.participatingTournaments ++ [t.id]
      constructor
      · intro _
        exact List.mem_append_right _ (List.mem_singleton_self t.id)
      · intro _
        exact List.mem_append_right _ (List.mem_singleton_self u.id)
    · show u.id ∈ t'.participants ↔ t'.id ∈ u.participatingTournaments ++ [t.id]
      rw [List.mem_append, List.mem_singleton]
      constructor
      · intro hm; exact Or.inl ((hb u hum t' htmem).mp hm)
      · rintro (hm | hm)
        · exact (hb u hum t' htmem).mpr hm
        · exact absurd hm htne
    · show u'.id ∈ t.participants ++ [u.id] ↔ t.id ∈ u'.participatingTournaments
      rw [List.mem_append, List.mem_singleton]
      constructor
      · rintro (hm | hm)
        · exact (hb u' humem t htm).mp hm
        · exact absurd hm hune
      · intro hm; exact Or.inl ((hb u' humem t htm).mpr hm)
    · exact hb u' humem t' htmem

theorem consistent_unregisterApply {tid uid : String} {t : Tournament} {u : User}
    {s : DB} (hC : Consistent s) (ht : findTournament s tid = some t)
    (hu : findUser s uid = some u) :
    Consistent (unregisterApply tid uid t u s) := by
  have htid : t.id = tid := findByKey_key ht
  have huid : u.id = uid := findByKey_key hu
  subst htid; subst huid
  obtain ⟨⟨hku, hkt⟩, ⟨hpn, hen⟩, hb⟩ := hC
  have htm : t ∈ s.tournaments := findByKey_mem ht
  have hum : u ∈ s.users := findByKey_mem hu
  refine ⟨keysOk_unregisterApply ⟨hku, hkt⟩, ⟨?_, ?_⟩, ?_⟩
  · intro t' ht'
    rcases mem_updateByKey_cases hkt ht ht' with rfl | ⟨hmem, _⟩
    · exact (hpn t htm).erase u.id
    · exact hpn t' hmem
  · intro u' hu'
    rcases mem_updateByKey_cases hku hu hu' with rfl | ⟨hmem, _⟩
    · exact (hen u hum).erase t.id
    · exact hen u' hmem
  · intro u' hu' t' ht'
    rcases mem_updateByKey_cases hku hu hu' with rfl | ⟨humem, hune⟩ <;>
      rcases mem_updateByKey_cases hkt ht ht' with rfl | ⟨htmem, htne⟩
    · show u.id ∈ t.participants.erase u.id ↔ t.id ∈ u.participatingTournaments.erase t.id
      rw [(hpn t htm).mem_erase_iff, (hen u hum).mem_erase_iff]
      simp
    · show u.id ∈ t'.participants ↔ t'.id ∈ u.participatingTournaments.erase t.id
      rw [(hen u hum).mem_erase_iff]
      constructor
      · intro hm; exact ⟨htne, (hb u hum t' htmem).mp hm⟩
      · rintro ⟨_, hm⟩; exact (hb u hum t' htmem).mpr hm
    · show u'.id ∈ t.participants.erase u.id ↔ t.id ∈ u'.participatingTournaments
      rw [(hpn t htm).mem_erase_iff]
      constructor
      · rintro ⟨_, hm⟩; exact (hb u' humem t htm).mp hm
      · intro hm; exact ⟨hune, (hb u' humem t htm).mpr hm⟩
    · exact hb u' humem t' htmem

theorem consistent_register (tid uid : String) {s : DB} (hC : Consistent s) :
    Consistent (registerForTournament tid uid s).snd := by
  rcases register_cases tid uid s with h | ⟨t, u, ht, hu, h1, _, _, h⟩
  · rw [h]; exact hC
  · rw [h]; exact consistent_registerApply hC ht hu h1

theorem consistent_unregister (tid uid : String) {s : DB} (hC : Consistent s) :
    Consistent (unregisterFromTournament tid uid s).snd := by
  rcases unregister_cases tid uid s with h | ⟨t, u, ht, hu, _, _, h⟩
  · rw [h]; exact hC
  · rw [h]; exact consistent_unregisterApply hC ht hu

theorem consistent_step {s s' : DB} (hC : Consistent s) (h : RegStep s s') :
    Consistent s' := by
  obtain ⟨tid, uid, rfl | rfl⟩ := h
  · exact consistent_register tid uid hC
  · exact consistent_unregister tid uid hC

theorem consistent_reachable {s s' : DB} (hC : Consistent s) (h : Reachable s s') :
    Consistent s' := by
  induction h with
  | refl => exact hC
  | tail _ hstep ih => exact consistent_step ih hstep

theorem capacityOk_registerApply {tid uid : String} {t : Tournament} {u : User}
    {s : DB} (hkt : (s.tournaments.map Tournament.id).Nodup) (hcap : capacityOk s)
    (ht : findTournament s tid = some t)
    (h2 : (t.participants.length : Int) < t.maxParticipants) :
    capacityOk (registerApply tid uid t u s) := by
  intro t' ht'
  rcases mem_updateByKey_cases hkt ht ht' with rfl | ⟨hmem, _⟩
  · show ((t.participants ++ [uid]).length : Int) ≤ t.maxParticipants
    rw [List.length_append, List.length_singleton]
    push_cast
    omega
  · exact hcap t' hmem

theorem capacityOk_unregisterApply {tid uid : String} {t : Tournament} {u : User}
    {s : DB} (hkt : (s.tournaments.map Tournament.id).Nodup) (hcap : capacityOk s)
    (ht : findTournament s tid = some t) :
    capacityOk (unregisterApply tid uid t u s) := by
  intro t' ht'
  rcases mem_updateByKey_cases hkt ht ht' with rfl | ⟨hmem, _⟩
  · show ((t.participants.erase uid).length : Int) ≤ t.maxParticipants
    have hle : (t.participants.erase uid).length ≤ t.participants.length :=
      (List.erase_sublist uid t.participants).length_le
    have hm := hcap t (findByKey_mem ht)
    omega
  · exact hcap t' hmem

theorem capacityOk_step {s s' : DB} (hk : keysOk s) (hcap : capacityOk s)
    (h : RegStep s s') : capacityOk s' := by
  obtain ⟨tid, uid, rfl | rfl⟩ := h
  · rcases register_cases tid uid s with h | ⟨t, u, ht, hu, _, h2, _, h⟩
    · rw [h]; exact hcap
    · rw [h]; exact capacityOk_registerApply hk.2 hcap ht h2
  · rcases unregister_cases tid uid s with h | ⟨t, u, ht, hu, _, _, h⟩
    · rw [h]; exact hcap
    · rw [h]; exact capacityOk_unregisterApply hk.2 hcap ht

theorem keysOk_step {s s' : DB} (hk : keysOk s) (h : RegStep s s') : keysOk s' := by
  obtain ⟨tid, uid, rfl | rfl⟩ := h
  · rcases register_cases tid uid s with h | ⟨t, u, _, _, _, _, _, h⟩
    · rw [h]; exact hk
    · rw [h]; exact keysOk_registerApply hk
  · rcases unregister_cases tid uid s with h | ⟨t, u, _, _, _, _, h⟩
    · rw [h]; exact hk
    · rw [h]; exact keysOk_unregisterApply hk

theorem capacityOk_reachable {s s' : DB} (hk : keysOk s) (hcap : capacityOk s)
    (h : Reachable s s') : capacityOk s' := by
  have : keysOk s' ∧ capacityOk s' := by
    induction h with
    | refl => exact ⟨hk, hcap⟩
    | tail _ hstep ih => exact ⟨keysOk_step ih.1 hstep, capacityOk_step ih.1 ih.2 hstep⟩
  exact this.2

theorem entryFee_findByKey_update {f : Tournament → Tournament} {l : List Tournament}
    (hid : ∀ x, (f x).id = x.id) (hfee : ∀ x, (f x).entryFee = x.entryFee)
    (tid tid2 : String) :
    (findByKey Tournament.id tid (updateByKey Tournament.id tid2 f l)).map Tournament.entryFee
      = (findByKey Tournament.id tid l).map Tournament.entryFee := by
  rw [findByKey_updateByKey hid]
  cases findByKey Tournament.id tid l with
  | none => rfl
  | some b =>
    rw [Option.map_some', Option.map_some', Option.map_some']
    split
    · rw [hfee b]
    · rfl

theorem entryFee_step {s s' : DB} (h : RegStep s s') (tid : String) :
    (findTournament s' tid).map Tournament.entryFee
      = (findTournament s tid).map Tournament.entryFee := by
  obtain ⟨tid2, uid2, rfl | rfl⟩ := h
  · rcases register_cases tid2 uid2 s with heq | ⟨t, u, _, _, _, _, _, heq⟩
    · rw [heq]
    · rw [heq]
      show (findByKey Tournament.id tid (updateByKey Tournament.id tid2 _ s.tournaments)).map
          Tournament.entryFee
        = (findByKey Tournament.id tid s.tournaments).map Tournament.entryFee
      apply entryFee_findByKey_update
      · intro x; rfl
      · intro x; rfl
  · rcases unregister_cases tid2 uid2 s with heq | ⟨t, u, _, _, _, _, heq⟩
    · rw [heq]
    · rw [heq]
      show (findByKey Tournament.id tid (updateByKey Tournament.id tid2 _ s.tournaments)).map
          Tournament.entryFee
        = (findByKey Tournament.id tid s.tournaments).map Tournament.entryFee
      apply entryFee_findByKey_update
      · intro x; rfl
      · intro x; rfl

theorem regStep_of_avoiding {uid : String} {s s' : DB}
    (h : RegStepAvoiding uid s s') : RegStep s s' := by
  obtain ⟨tid2, uid2, _, h⟩ := h
  exact ⟨tid2, uid2, h⟩

theorem findUser_avoid_step {uid : String} {s s' : DB}
    (h : RegStepAvoiding uid s s') : findUser s' uid = findUser s uid := by
  obtain ⟨tid2, uid2, hne, rfl | rfl⟩ := h
  · rcases register_cases tid2 uid2 s with heq | ⟨t, u, _, _, _, _, _, heq⟩
    · rw [heq]
    · rw [heq]
      exact findUser_registerApply_ne (Ne.symm hne)
  · rcases unregister_cases tid2 uid2 s with heq | ⟨t, u, _, _, _, _, heq⟩
    · rw [heq]
    · rw [heq]
      exact findUser_unregisterApply_ne (Ne.symm hne)

theorem findUser_avoid_chain {uid : String} {s s' : DB}
    (h : Relation.ReflTransGen (RegStepAvoiding uid) s s') :
    findUser s' uid = findUser s uid := by
  induction h with
  | refl => rfl
  | tail _ hstep ih => rw [findUser_avoid_step hstep, ih]

theorem entryFee_avoid_chain {uid : String} {s s' : DB}
    (h : Relation.ReflTransGen (RegStepAvoiding uid) s s') (tid : String) :
    (findTournament s' tid).map Tournament.entryFee
      = (findTournament s tid).map Tournament.entryFee := by
  induction h with
  | refl => rfl
  | tail _ hstep ih => rw [entryFee_step (regStep_of_avoiding hstep) tid, ih]

theorem consistent_avoid_chain {uid : String} {s s' : DB} (hC : Consistent s)
    (h : Relation.ReflTransGen (RegStepAvoiding uid) s s') : Consistent s' := by
  induction h with
  | refl => exact hC
  | tail _ hstep ih => exact consistent_step ih (regStep_of_avoiding hstep)

/-! ## The claims -/

/-- Claim C2: every committed state reachable through register/unregister
from a state with well-formed primary keys and `len(participants) ≤
maxParticipants` keeps that capacity bound; and a `registerForTournament`
call against a full tournament fails, mutates nothing, and (when the caller
is not already on the roster) is rejected by the capacity guard
(`CapacityExceeded`). -/
theorem capacity_never_exceeded (s s' : DB) (hk : keysOk s) (hcap : capacityOk s)
    (hr : Reachable s s') :
    capacityOk s' ∧
    ∀ (s2 : DB) (tid uid : String) (t : Tournament) (u : User),
      findTournament s2 tid = some t → findUser s2 uid = some u →
      (t.participants.length : Int) ≥ t.maxParticipants →
      registerForTournament tid uid s2 = (false, s2) ∧
      (uid ∉ t.participants →
        registerCheck tid uid s2 = some RegError.capacityExceeded) := by
  refine ⟨capacityOk_reachable hk hcap hr, ?_⟩
  intro s2 tid uid t u ht hu hfull
  constructor
  · rw [registerForTournament, ht, hu]
    by_cases h1 : uid ∈ t.participants
    · simp [h1]
    · simp [h1, hfull]
  · intro h1
    rw [registerCheck, ht, hu]
    simp [h1, hfull]

/-- Witness for C2 at a concrete state: `t9` is full (1 of 1 slots taken),
so `u1` is rejected by the capacity guard with no mutation. -/
theorem capacity_never_exceeded_witness :
    registerForTournament "t9" "u1" db0 = (false, db0) ∧
    registerCheck "t9" "u1" db0 = some RegError.capacityExceeded := by
  have h := (capacity_never_exceeded db0 db0
      (⟨by decide, by decide⟩ : keysOk db0)
      (by unfold capacityOk; decide) Relation.ReflTransGen.refl).2
      db0 "t9" "u1" fullT userA (by decide) (by decide) (by decide)
  exact ⟨h.1, h.2 (by decide)⟩

/-- Claim C3: in every state reachable through register/unregister from a
consistent state, a user's id is on a tournament's roster exactly when the
tournament's id is in the user's enrolled list. -/
theorem bidirectional_membership (s s' : DB) (hC : Consistent s)
    (hr : Reachable s s') :
    ∀ u ∈ s'.users, ∀ t ∈ s'.tournaments,
      (u.id ∈ t.participants ↔ t.id ∈ u.participatingTournaments) :=
  (consistent_reachable hC hr).2.2

/-- Witness for C3: after `u1` registers for `t1` from `db0`, the updated
user row and the updated tournament row agree on the membership. -/
theorem bidirectional_membership_witness :
    (({ userA with stars := 100, participatingTournaments := ["t1"] } : User).id
        ∈ ({ upcomingT with participants := ["u2", "u1"] } : Tournament).participants)
    ↔ (({ upcomingT with participants := ["u2", "u1"] } : Tournament).id
        ∈ ({ userA with
              stars := 100,
              participatingTournaments := ["t1"] } : User).participatingTournaments) :=
  bidirectional_membership db0 (registerForTournament "t1" "u1" db0).snd
    (by unfold Consistent keysOk rostersNodup bidirOk; decide)
    (Relation.ReflTransGen.single ⟨"t1", "u1", Or.inl rfl⟩)
    _ (by decide) _ (by decide)

/-- Claim C5: if a `registerForTournament` call succeeded, re-issuing the
same call against the committed state fails on the membership guard
(`AlreadyRegistered`) and leaves the state — balance and roster included —
unchanged. -/
theorem no_double_registration (tid uid : String) (s : DB)
    (h : (registerForTournament tid uid s).fst = true) :
    registerForTournament tid uid (registerForTournament tid uid s).snd
      = (false, (registerForTournament tid uid s).snd) ∧
    registerCheck tid uid (registerForTournament tid uid s).snd
      = some RegError.alreadyRegistered := by
  rcases register_cases tid uid s with heq | ⟨t, u, ht, hu, h1, h2, h3, heq⟩
  · rw [heq] at h; simp at h
  · rw [heq]
    have ht2 := findTournament_registerApply_self uid u ht
    have hu2 := findUser_registerApply_self tid t hu
    constructor
    · rw [registerForTournament, ht2, hu2]
      simp
    · rw [registerCheck, ht2, hu2]
      simp

/-- Witness for C5: registering `u1` for `t1` twice from `db0`. -/
theorem no_double_registration_witness :
    registerForTournament "t1" "u1" (registerForTournament "t1" "u1" db0).snd
      = (false, (registerForTournament "t1" "u1" db0).snd) ∧
    registerCheck "t1" "u1" (registerForTournament "t1" "u1" db0).snd
      = some RegError.alreadyRegistered :=
  no_double_registration "t1" "u1" db0 (by decide)

/-- Claim C6: when the user's balance is below the entry fee,
`registerForTournament` fails and the state — the balance and the
participants list included — is unchanged; when the earlier guards pass,
the rejection is the balance guard (`InsufficientBalance`). -/
theorem insufficient_balance_rejected (tid uid : String) (s : DB) (t : Tournament)
    (u : User) (ht : findTournament s tid = some t) (hu : findUser s uid = some u)
    (hlt : u.stars < t.entryFee) :
    registerForTournament tid uid s = (false, s) ∧
    (uid ∉ t.participants → (t.participants.length : Int) < t.maxParticipants →
      registerCheck tid uid s = some RegError.insufficientBalance) := by
  constructor
  · rw [registerForTournament, ht, hu]
    by_cases h1 : uid ∈ t.participants
    · simp [h1]
    · by_cases h2 : (t.participants.length : Int) ≥ t.maxParticipants
      · simp [h1, h2]
      · simp [h1, h2, hlt]
  · intro h1 h2
    rw [registerCheck, ht, hu]
    simp [h1, not_le.mpr h2, hlt]

/-- Witness for C6: `u3` (50 stars) against `t1` (fee 100) in `db0`. -/
theorem insufficient_balance_rejected_witness :
    registerForTournament "t1" "u3" db0 = (false, db0) ∧
    registerCheck "t1" "u3" db0 = some RegError.insufficientBalance := by
  have h := insufficient_balance_rejected "t1" "u3" db0 upcomingT userC
    (by decide) (by decide) (by decide)
  exact ⟨h.1, h.2 (by decide) (by decide)⟩

/-- Counterexample to claim C1 as stated: `DatabaseStorage`'s
`registerForTournament` and `unregisterFromTournament` check no tournament
status.  In `dbActive` the only tournament is `active`, yet `u1`'s
registration succeeds and mutates the roster and the balance, and `u2`'s
unregistration succeeds and refunds the fee. -/
theorem status_gate_counterexample :
    activeT.status ≠ TStatus.upcoming ∧
    (registerForTournament "t1" "u1" dbActive).fst = true ∧
    (findTournament (registerForTournament "t1" "u1" dbActive).snd "t1").map
        Tournament.participants = some ["u2", "u1"] ∧
    (findUser (registerForTournament "t1" "u1" dbActive).snd "u1").map User.stars
      = some 100 ∧
    (unregisterFromTournament "t1" "u2" dbActive).fst = true ∧
    (findUser (unregisterFromTournament "t1" "u2" dbActive).snd "u2").map User.stars
      = some 200 := by
  decide

/-- Claim C4: a successful registration followed — after any number of
register/unregister calls by other users — by a successful unregistration
of the same (tournament, user) pair restores the user's balance exactly,
and leaves the user off the roster and the tournament out of the user's
enrolled list. -/
theorem register_unregister_roundtrip (s s3 : DB) (tid uid : String) (u : User)
    (hC : Consistent s) (hu : findUser s uid = some u)
    (hreg : (registerForTournament tid uid s).fst = true)
    (hmid : Relation.ReflTransGen (RegStepAvoiding uid)
      (registerForTournament tid uid s).snd s3)
    (hunreg : (unregisterFromTournament tid uid s3).fst = true) :
    (findUser (unregisterFromTournament tid uid s3).snd uid).map User.stars
      = some u.stars ∧
    (∀ t', findTournament (unregisterFromTournament tid uid s3).snd tid = some t' →
      uid ∉ t'.participants) ∧
    (∀ u', findUser (unregisterFromTournament tid uid s3).snd uid = some u' →
      tid ∉ u'.participatingTournaments) := by
  rcases register_cases tid uid s with heq | ⟨t0, u0, ht0, hu0, hnm, hlt, hfee, heq⟩
  · rw [heq] at hreg; simp at hreg
  · rw [hu] at hu0
    obtain rfl : u = u0 := Option.some.inj hu0
    rw [heq] at hmid
    have hu2 : findUser s3 uid
        = some ({ u with
            stars := u.stars - t0.entryFee,
            participatingTournaments := u.participatingTournaments ++ [tid] }) := by
      rw [findUser_avoid_chain hmid]
      exact findUser_registerApply_self tid t0 hu
    have hfee3 : (findTournament s3 tid).map Tournament.entryFee
        = some t0.entryFee := by
      rw [entryFee_avoid_chain hmid tid]
      have h2 := findTournament_registerApply_self uid u ht0
      rw [show findTournament (true, registerApply tid uid t0 u s).snd tid
          = findTournament (registerApply tid uid t0 u s) tid from rfl, h2]
      rfl
    have hC3 : Consistent s3 := by
      refine consistent_avoid_chain ?_ hmid
      have h2 := consistent_register tid uid hC
      rw [heq] at h2
      exact h2
    rcases unregister_cases tid uid s3 with heq3 | ⟨t3, u3, ht3, hu3, hm3, hm3b, heq3⟩
    · rw [heq3] at hunreg; simp at hunreg
    · rw [hu2] at hu3
      obtain rfl := Option.some.inj hu3
      rw [ht3] at hfee3
      have ht3fee : t3.entryFee = t0.entryFee := Option.some.inj hfee3
      rw [heq3]
      refine ⟨?_, ?_, ?_⟩
      · rw [findUser_unregisterApply_self tid t3 hu2, Option.map_some']
        congr 1
        simp only []
        omega
      · intro t' ht'
        rw [findTournament_unregisterApply_self uid _ ht3] at ht'
        obtain rfl := Option.some.inj ht'.symm
        have hnd : t3.participants.Nodup := hC3.2.1.1 t3 (findByKey_mem ht3)
        intro hmm
        rw [hnd.mem_erase_iff] at hmm
        exact hmm.1 rfl
      · intro u' hu'
        rw [findUser_unregisterApply_self tid t3 hu2] at hu'
        obtain rfl := Option.some.inj hu'.symm
        have hnd := hC3.2.1.2 _ (findByKey_mem hu2)
        intro hmm
        rw [hnd.mem_erase_iff] at hmm
        exact hmm.1 rfl

/-- Witness for C4: `u1` (200 stars) registers for `t1` (fee 100) in `db0`
and immediately unregisters; the balance returns to 200. -/
theorem register_unregister_roundtrip_witness :
    (findUser (unregisterFromTournament "t1" "u1"
        (registerForTournament "t1" "u1" db0).snd).snd "u1").map User.stars
      = some 200 :=
  (register_unregister_roundtrip db0 (registerForTournament "t1" "u1" db0).snd
    "t1" "u1" userA (by unfold Consistent keysOk rostersNodup bidirOk; decide)
    (by decide) (by decide) Relation.ReflTransGen.refl (by decide)).1

/-- Claim C10: the amount `unregisterFromTournament` credits back is the
tournament's `entryFee` as read at unregistration time: if the fee is
changed through `updateTournament` between registration and
unregistration, the final balance is the original balance minus the old
fee plus the new fee. -/
theorem refund_uses_current_fee (s : DB) (tid uid : String) (t : Tournament)
    (u : User) (f2 : Int) (ht : findTournament s tid = some t)
    (hu : findUser s uid = some u)
    (hreg : (registerForTournament tid uid s).fst = true) :
    (unregisterFromTournament tid uid
        (updateTournament tid (fun x => { x with entryFee := f2 })
          (registerForTournament tid uid s).snd).snd).fst = true ∧
    (findUser (unregisterFromTournament tid uid
        (updateTournament tid (fun x => { x with entryFee := f2 })
          (registerForTournament tid uid s).snd).snd).snd uid).map User.stars
      = some (u.stars - t.entryFee + f2) := by
  rcases register_cases tid uid s with heq | ⟨t0, u0, ht0, hu0, hnm, hlt, hfee, heq⟩
  · rw [heq] at hreg; simp at hreg
  · rw [ht] at ht0
    obtain rfl : t = t0 := Option.some.inj ht0
    rw [hu] at hu0
    obtain rfl : u = u0 := Option.some.inj hu0
    rw [heq]
    have ht2 := findTournament_registerApply_self uid u ht
    have hu2 := findUser_registerApply_self tid t hu
    have ht3 : findTournament (updateTournament tid
        (fun x => { x with entryFee := f2 })
        (true, registerApply tid uid t u s).snd).snd tid
        = some ({ t with
            entryFee := f2,
            participants := t.participants ++ [uid] }) := by
      show findByKey Tournament.id tid
          (updateByKey Tournament.id tid (fun x => { x with entryFee := f2 })
            (registerApply tid uid t u s).tournaments)
        = some ({ t with
            entryFee := f2,
            participants := t.participants ++ [uid] })
      exact findByKey_updateByKey_self_of (fun x => { x with entryFee := f2 })
        (fun _ => rfl) ht2 (findByKey_key ht2)
    have hu3 : findUser (updateTournament tid
        (fun x => { x with entryFee := f2 })
        (true, registerApply tid uid t u s).snd).snd uid
        = some ({ u with
            stars := u.stars - t.entryFee,
            participatingTournaments := u.participatingTournaments ++ [tid] }) := hu2
    have hmem1 : uid ∈ ({ t with
        entryFee := f2,
        participants := t.participants ++ [uid] } : Tournament).participants :=
      List.mem_append_right _ (List.mem_singleton_self uid)
    have hmem2 : tid ∈ ({ u with
        stars := u.stars - t.entryFee,
        participatingTournaments := u.participatingTournaments ++ [tid] } :
          User).participatingTournaments :=
      List.mem_append_right _ (List.mem_singleton_self tid)
    have hun := unregister_success ht3 hu3 hmem1 hmem2
    rw [hun]
    refine ⟨rfl, ?_⟩
    rw [findUser_unregisterApply_self tid _ hu3, Option.map_some']

/-- Witness for C10: `u1` registers for `t1` (fee 100, balance 200 → 100),
the fee is changed to 60, and unregistering refunds 60: balance 160. -/
theorem refund_uses_current_fee_witness :
    (findUser (unregisterFromTournament "t1" "u1"
        (updateTournament "t1" (fun x => { x with entryFee := 60 })
          (registerForTournament "t1" "u1" db0).snd).snd).snd "u1").map User.stars
      = some 160 := by
  have h := (refund_uses_current_fee db0 "t1" "u1" upcomingT userA 60
    (by decide) (by decide) (by decide)).2
  simpa using h

/-- Claim C1, amended: `DatabaseStorage.registerForTournament` and
`unregisterFromTournament` themselves perform no status check (see the
counterexample above); the status gate lives one layer up, in the
`TournamentService`: when the tournament's status as read at the start of
the operation is not `upcoming`, `registerUserForTournament` and
`unregisterUserFromTournament` both fail — with the
no-longer-accepting-registrations / cannot-unregister messages — and
mutate nothing: participants, balance and enrolled list are unchanged. -/
theorem service_status_gate (s : DB) (tid tg newId : String) (u : User)
    (t : Tournament) (hu : findUserByTelegramId s tg = some u)
    (ht : findTournament s tid = some t)
    (hs : t.status ≠ TStatus.upcoming) :
    registerUserForTournament tid tg newId s
      = ({ success := false,
           message := "Tournament is no longer accepting registrations" }, s) ∧
    unregisterUserFromTournament tid tg newId s
      = ({ success := false,
           message := "Cannot unregister from tournament that has started" }, s) := by
  constructor
  · rw [registerUserForTournament, getOrCreateUser, hu]
    rw [show ((u, s) : User × DB).snd = s from rfl]
    rw [ht]
    simp [hs]
  · rw [unregisterUserFromTournament, getOrCreateUser, hu]
    rw [show ((u, s) : User × DB).snd = s from rfl]
    rw [ht]
    simp [hs]

/-- Witness for the amended C1: in `dbActive` (tournament `t1` is
`active`), both service-layer calls for `tg1` fail and change nothing. -/
theorem service_status_gate_witness :
    registerUserForTournament "t1" "tg1" "fresh" dbActive
      = ({ success := false,
           message := "Tournament is no longer accepting registrations" }, dbActive) ∧
    unregisterUserFromTournament "t1" "tg1" "fresh" dbActive
      = ({ success := false,
           message := "Cannot unregister from tournament that has started" }, dbActive) :=
  service_status_gate dbActive "t1" "tg1" "fresh" userA activeT
    (by decide) (by decide) (by decide)

/-- Claim C7: `getTournament`'s read-through lookup returns the cached
value — without touching the cache — when a slot for the key exists and is
not yet expired (expiry is insertion time plus the fixed five-minute
`cacheTimeout`; an invalidated slot is an absent slot); otherwise it
invokes the ledger read, returns its result, and, when a row was loaded,
stores it with the fresh expiry `now + cacheTimeout`. -/
theorem cache_read_through (c : Cache) (now : Int) (id : String)
    (dbRead : String → Option Tournament) :
    (∀ e, cacheGet ("tournament:" ++ id) c = some e → ¬ now > e.expires →
      getTournamentCached c now id dbRead = (some e.data, c)) ∧
    ((∀ e, cacheGet ("tournament:" ++ id) c = some e → now > e.expires) →
      (getTournamentCached c now id dbRead).fst = dbRead id ∧
      (∀ t, dbRead id = some t →
        cacheGet ("tournament:" ++ id) (getTournamentCached c now id dbRead).snd
          = some ⟨t, now + cacheTimeout⟩)) := by
  constructor
  · intro e he hne
    rw [getTournamentCached, getFromCache, he]
    simp [hne]
  · intro hexp
    have hmiss : getFromCache c now ("tournament:" ++ id)
        = (none, cacheDelete ("tournament:" ++ id) c) := by
      rw [getFromCache]
      cases hc : cacheGet ("tournament:" ++ id) c with
      | none => rfl
      | some e => simp [hexp e hc]
    rw [getTournamentCached, hmiss]
    cases hdb : dbRead id with
    | none =>
      refine ⟨rfl, ?_⟩
      intro t h
      cases h
    | some t =>
      refine ⟨rfl, ?_⟩
      intro t2 h
      obtain rfl := Option.some.inj h
      show cacheGet ("tournament:" ++ id)
          (setCache (cacheDelete ("tournament:" ++ id) c) now
            ("tournament:" ++ id) t) = some ⟨t, now + cacheTimeout⟩
      rw [setCache, cacheGet, if_pos rfl]

/-- Witness for C7, hit and miss: a fresh slot for `t1` is served from the
cache; an expired slot falls through to the loader and is re-cached. -/
theorem cache_read_through_witness :
    getTournamentCached [("tournament:t1", ⟨upcomingT, 10⟩)] 5 "t1"
      (fun _ => none) = (some upcomingT, [("tournament:t1", ⟨upcomingT, 10⟩)]) ∧
    cacheGet "tournament:t1"
      (getTournamentCached [("tournament:t1", ⟨upcomingT, 10⟩)] 20 "t1"
        (fun _ => some activeT)).snd = some ⟨activeT, 20 + cacheTimeout⟩ := by
  constructor
  · exact (cache_read_through [("tournament:t1", ⟨upcomingT, 10⟩)] 5 "t1"
      (fun _ => none)).1 ⟨upcomingT, 10⟩ (by decide) (by decide)
  · exact ((cache_read_through [("tournament:t1", ⟨upcomingT, 10⟩)] 20 "t1"
      (fun _ => some activeT)).2 (by decide)).2 activeT rfl

/-- Claim C8: both multi-row operations acquire their exclusive row holds
in the one fixed global order — the tournament row strictly before the
user row (`rowRank`) — and each row's value is read only after its hold is
acquired; consequently two such transactions on the same (tournament,
user) pair can never acquire the two rows in opposite orders, which is the
deadlock scenario the ordering exists to rule out. -/
theorem fixed_lock_order (tid uid : String) :
    acquisitions (registerTxEvents tid uid)
      = [RowRef.tournamentRow tid, RowRef.userRow uid] ∧
    acquisitions (unregisterTxEvents tid uid)
      = [RowRef.tournamentRow tid, RowRef.userRow uid] ∧
    (∀ tr, (tr = registerTxEvents tid uid ∨ tr = unregisterTxEvents tid uid) →
      (acquisitions tr).Pairwise (fun a b => rowRank a < rowRank b) ∧
      (∀ r, TxEvent.readRow r ∈ tr →
        [TxEvent.acquireRow r, TxEvent.readRow r].Sublist tr)) ∧
    (∀ tr1 tr2,
      (tr1 = registerTxEvents tid uid ∨ tr1 = unregisterTxEvents tid uid) →
      (tr2 = registerTxEvents tid uid ∨ tr2 = unregisterTxEvents tid uid) →
      ∀ a b, ¬ (acquiredBefore tr1 a b ∧ acquiredBefore tr2 b a)) := by
  have hacq : ∀ tr, (tr = registerTxEvents tid uid ∨ tr = unregisterTxEvents tid uid) →
      acquisitions tr = [RowRef.tournamentRow tid, RowRef.userRow uid] := by
    rintro tr (rfl | rfl) <;> rfl
  have htrace : ∀ tr, (tr = registerTxEvents tid uid ∨ tr = unregisterTxEvents tid uid) →
      tr = [TxEvent.acquireRow (RowRef.tournamentRow tid),
            TxEvent.readRow (RowRef.tournamentRow tid),
            TxEvent.acquireRow (RowRef.userRow uid),
            TxEvent.readRow (RowRef.userRow uid)] := by
    rintro tr (rfl | rfl) <;> rfl
  refine ⟨rfl, rfl, ?_, ?_⟩
  · intro tr htr
    constructor
    · rw [hacq tr htr]
      refine List.Pairwise.cons ?_ (List.pairwise_singleton _ _)
      intro b hb
      rw [List.mem_singleton] at hb
      subst hb
      exact Nat.zero_lt_one
    · intro r hr
      rw [htrace tr htr] at hr ⊢
      simp only [List.mem_cons, List.not_mem_nil, or_false] at hr
      rcases hr with hr | hr | hr | hr
      · cases hr
      · obtain rfl : r = RowRef.tournamentRow tid := by
          injection hr
        exact ((List.nil_sublist
          [TxEvent.acquireRow (RowRef.userRow uid),
           TxEvent.readRow (RowRef.userRow uid)]).cons₂
            (TxEvent.readRow (RowRef.tournamentRow tid))).cons₂
          (TxEvent.acquireRow (RowRef.tournamentRow tid))
      · cases hr
      · obtain rfl : r = RowRef.userRow uid := by
          injection hr
        exact (((List.Sublist.refl
          [TxEvent.acquireRow (RowRef.userRow uid),
           TxEvent.readRow (RowRef.userRow uid)]).cons
            (TxEvent.readRow (RowRef.tournamentRow tid))).cons
          (TxEvent.acquireRow (RowRef.tournamentRow tid)))
  · intro tr1 tr2 h1 h2 a b hab
    obtain ⟨hb1, hb2⟩ := hab
    rw [acquiredBefore, hacq tr1 h1] at hb1
    rw [acquiredBefore, hacq tr2 h2] at hb2
    have e1 : [a, b] = [RowRef.tournamentRow tid, RowRef.userRow uid] :=
      hb1.eq_of_length rfl
    have e2 : [b, a] = [RowRef.tournamentRow tid, RowRef.userRow uid] :=
      hb2.eq_of_length rfl
    simp only [List.cons.injEq, and_true] at e1 e2
    exact absurd (e1.2.symm.trans e2.1) (by simp)

/-- Witness for C8: in the register transaction on `("t", "u")`, the
tournament row's read is preceded by its hold acquisition. -/
theorem fixed_lock_order_witness :
    [TxEvent.acquireRow (RowRef.tournamentRow "t"),
     TxEvent.readRow (RowRef.tournamentRow "t")].Sublist
      (registerTxEvents "t" "u") :=
  ((fixed_lock_order "t" "u").2.2.1 (registerTxEvents "t" "u") (Or.inl rfl)).2
    (RowRef.tournamentRow "t") (by decide)

/-- Claim C9: `createUser` gives every new user exactly 1000 stars and an
empty enrolled list, whatever starting balance the caller supplied — in
particular `getOrCreateUser`'s `stars: 100` is ignored on the create
path. -/
theorem createUser_starting_balance (ins : InsertUser) (newId : String) (s : DB) :
    ((createUser ins newId s).fst.stars = 1000 ∧
     (createUser ins newId s).fst.participatingTournaments = []) ∧
    (∀ tg nid, findUserByTelegramId s tg = none →
      ((getOrCreateUser tg nid s).fst.stars = 1000 ∧
       (getOrCreateUser tg nid s).fst.participatingTournaments = [])) := by
  refine ⟨⟨rfl, rfl⟩, ?_⟩
  intro tg nid h
  rw [getOrCreateUser, h]
  exact ⟨rfl, rfl⟩

/-- Witness for C9: a telegram id unknown to `db0` yields a fresh user
with 1000 stars and no enrolled tournaments. -/
theorem createUser_starting_balance_witness :
    (getOrCreateUser "tg-new" "u-new" db0).fst.stars = 1000 ∧
    (getOrCreateUser "tg-new" "u-new" db0).fst.participatingTournaments = [] :=
  (createUser_starting_balance
    { telegramId := "tg-new", username := "x", firstName := none, lastName := none,
      isAdmin := none, stars := some 100 } "u-new" db0).2
    "tg-new" "u-new" (by decide)

end WZ
